import Mathlib

/-!
Verification of the device-dashboard data pipeline.

The definitions below are a shallow embedding of the hooks in
`src/hooks/useGeotabApi.js` and `src/hooks/useDeviceData.js` (plus the
superseded copy of `useDeviceData.js` kept in the repository).  JS numbers
are modelled as `Rat`, nullable values as `Option`, and the callback-based
RPC transport as explicit response functions.
-/

namespace Dashboard

/-! ## Feed paginator (`useGeotabApi.js`, `getAllWithFeed`) -/

/-- Geotab's max page size per request (`resultsLimit = 5000` in the source). -/
def pageSize : Nat := 5000

/-- Fallback bound used by the error path (`resultsLimit: 50000`). -/
def fallbackLimit : Nat := 50000

/-- Shape of a `GetFeed` response: `{ data, toVersion }`.  Versions are
modelled as natural numbers (the source threads them as opaque strings,
starting from `'0'`). -/
structure FeedResult (R : Type) where
  data : List R
  toVersion : Option Nat
deriving Repr, DecidableEq

/-- The RPC transport as seen by `getAllWithFeed`: a `GetFeed` response per
`fromVersion` (`.ok none` models a response with no `data` field, which the
source treats as end of stream), and the result of the fallback
`call('Get', \x7btypeName, search, resultsLimit: 50000\x7d)`. -/
structure FeedTransport (R E : Type) where
  getFeed : Nat → Except E (Option (FeedResult R))
  getWithLimit : Except E (List R)

instance {E α : Type} [DecidableEq E] [DecidableEq α] : DecidableEq (Except E α) := fun x y =>
  match x, y with
  | .error a, .error b =>
    if h : a = b then isTrue (congrArg Except.error h)
    else isFalse (fun hc => h (by injection hc))
  | .error _, .ok _ => isFalse (fun hc => by injection hc)
  | .ok _, .error _ => isFalse (fun hc => by injection hc)
  | .ok a, .ok b =>
    if h : a = b then isTrue (congrArg Except.ok h)
    else isFalse (fun hc => h (by injection hc))

/-- The `while (true)` loop of `getAllWithFeed`, with explicit fuel
(`none` = fuel exhausted, i.e. the loop did not terminate within `fuel`
iterations).  Returns the accumulated records together with the number of
`GetFeed` calls issued. -/
def feedLoop {R E : Type} (tr : FeedTransport R E) :
    Nat → Nat → List R → Nat → Option (Except E (List R × Nat))
  | 0, _, _, _ => none
  | fuel + 1, fromVersion, acc, calls =>
    match tr.getFeed fromVersion with
    | .error e => some (.error e)
    | .ok none => some (.ok (acc, calls + 1))
    | .ok (some result) =>
      let acc2 := acc ++ result.data
      if result.data.length < pageSize then
        some (.ok (acc2, calls + 1))
      else
        match result.toVersion with
        | none => some (.ok (acc2, calls + 1))
        | some v => feedLoop tr fuel v acc2 (calls + 1)

/-- `getAllWithFeed`: run the pagination loop from `fromVersion = 0` with an
empty accumulator; on any error abandon the accumulated records and return
the fallback single bounded fetch (whose own failure propagates). -/
def getAllWithFeed {R E : Type} (tr : FeedTransport R E) (fuel : Nat) :
    Option (Except E (List R)) :=
  match feedLoop tr fuel 0 [] 0 with
  | none => none
  | some (.ok (res, _)) => some (.ok res)
  | some (.error _) => some tr.getWithLimit

/-- Number of `GetFeed` calls issued by a successful run of `getAllWithFeed`. -/
def getAllWithFeedCallCount {R E : Type} (tr : FeedTransport R E) (fuel : Nat) :
    Option Nat :=
  match feedLoop tr fuel 0 [] 0 with
  | some (.ok (_, calls)) => some calls
  | _ => none

/-- An honest feed server over a fixed record list: versions index into the
list, each page is the next `pageSize` records, and `toVersion` is omitted
on the final page. -/
def listServer {R : Type} (recs : List R) : FeedTransport R Unit where
  getFeed := fun i =>
    .ok (some { data := (recs.drop i).take pageSize
                toVersion := if i + pageSize < recs.length then some (i + pageSize) else none })
  getWithLimit := .ok (recs.take fallbackLimit)

/-- The number of `GetFeed` calls the loop makes for `n` remaining records:
`max 1 ⌈n / pageSize⌉` (one call is always issued, even for `n = 0`). -/
def expectedCalls (n : Nat) : Nat := max 1 ((n + pageSize - 1) / pageSize)

theorem expectedCalls_le (m : Nat) (h : m ≤ pageSize) : expectedCalls m = 1 := by
  unfold expectedCalls pageSize at *
  have : (m + 5000 - 1) / 5000 < 2 := (Nat.div_lt_iff_lt_mul (by omega)).mpr (by omega)
  omega

theorem expectedCalls_step (m : Nat) (h : pageSize < m) :
    expectedCalls m = expectedCalls (m - pageSize) + 1 := by
  unfold expectedCalls pageSize at *
  have h1 : m + 5000 - 1 = (m - 5000 + 5000 - 1) + 5000 := by omega
  rw [h1, Nat.add_div_right _ (by omega)]
  have h2 : 1 ≤ (m - 5000 + 5000 - 1) / 5000 + 1 := by omega
  have h3 : 1 ≤ (m - 5000 + 5000 - 1) / 5000 ∨ m - 5000 + 5000 - 1 < 5000 := by
    rcases Nat.lt_or_ge (m - 5000 + 5000 - 1) 5000 with h4 | h4
    · exact Or.inr h4
    · exact Or.inl (Nat.le_div_iff_mul_le (by omega) |>.mpr (by omega))
  omega

theorem listServer_getFeed_low {R : Type} (recs : List R) (i : Nat)
    (h : i + pageSize < recs.length) :
    (listServer recs).getFeed i
      = .ok (some { data := (recs.drop i).take pageSize, toVersion := some (i + pageSize) }) := by
  simp [listServer, h]

theorem listServer_getFeed_high {R : Type} (recs : List R) (i : Nat)
    (h : ¬ i + pageSize < recs.length) :
    (listServer recs).getFeed i
      = .ok (some { data := (recs.drop i).take pageSize, toVersion := none }) := by
  simp [listServer, h]

theorem feedLoop_listServer {R : Type} (recs : List R) :
    ∀ (fuel i : Nat) (acc : List R) (calls : Nat),
      i ≤ recs.length →
      expectedCalls (recs.length - i) ≤ fuel →
      feedLoop (listServer recs) fuel i acc calls
        = some (.ok (acc ++ recs.drop i, calls + expectedCalls (recs.length - i))) := by
  intro fuel
  induction fuel with
  | zero =>
    intro i acc calls _ hfuel
    exact absurd hfuel (by unfold expectedCalls; omega)
  | succ fuel ih =>
    intro i acc calls hi hfuel
    have hdroplen : (recs.drop i).length = recs.length - i := by simp
    have hlen : ((recs.drop i).take pageSize).length = min pageSize (recs.length - i) := by
      rw [List.length_take, hdroplen]
    by_cases hsmall : recs.length - i < pageSize
    · -- final short page: the loop stops because `data.length < resultsLimit`
      have hnotlast : ¬ i + pageSize < recs.length := by omega
      have htake : (recs.drop i).take pageSize = recs.drop i :=
        List.take_of_length_le (by omega)
      simp only [feedLoop, listServer_getFeed_high recs i hnotlast]
      rw [if_pos (by rw [hlen]; omega), htake, expectedCalls_le _ (le_of_lt hsmall)]
    · push_neg at hsmall
      by_cases hlast : i + pageSize < recs.length
      · -- full page with more to come: recurse at version `i + pageSize`
        simp only [feedLoop, listServer_getFeed_low recs i hlast]
        rw [if_neg (by rw [hlen]; omega)]
        have hstep := expectedCalls_step (recs.length - i) (by omega)
        have heq : recs.length - i - pageSize = recs.length - (i + pageSize) := by omega
        rw [heq] at hstep
        have hrec := ih (i + pageSize) (acc ++ (recs.drop i).take pageSize)
          (calls + 1) (by omega) (by omega)
        rw [hrec]
        have hdd : recs.drop (i + pageSize) = (recs.drop i).drop pageSize := by
          rw [List.drop_drop, Nat.add_comm]
        have hsplit : acc ++ (recs.drop i).take pageSize ++ recs.drop (i + pageSize)
            = acc ++ recs.drop i := by
          rw [List.append_assoc, hdd, List.take_append_drop]
        have hcount : calls + 1 + expectedCalls (recs.length - (i + pageSize))
            = calls + expectedCalls (recs.length - i) := by omega
        rw [hsplit, hcount]
      · -- exactly one full final page: the server omits `toVersion`
        simp only [feedLoop, listServer_getFeed_high recs i hlast]
        rw [if_neg (by rw [hlen]; omega)]
        have htake : (recs.drop i).take pageSize = recs.drop i :=
          List.take_of_length_le (by omega)
        rw [htake, expectedCalls_le _ (by omega)]

/-- C1 (amended form): over the honest list server, `getAllWithFeed` returns
exactly the server's records in order, and issues `max 1 ⌈N / P⌉` feed
calls; in particular an empty feed yields `[]` (from one probing call), not
an error. -/
theorem getAllWithFeed_complete {R : Type} (recs : List R) (fuel : Nat)
    (hfuel : expectedCalls recs.length ≤ fuel) :
    getAllWithFeed (listServer recs) fuel = some (.ok recs) ∧
    getAllWithFeedCallCount (listServer recs) fuel = some (expectedCalls recs.length) := by
  have h := feedLoop_listServer recs fuel 0 [] 0 (Nat.zero_le _) (by simpa using hfuel)
  simp only [List.drop_zero, List.nil_append, Nat.zero_add, Nat.sub_zero] at h
  constructor
  · unfold getAllWithFeed
    rw [h]
  · unfold getAllWithFeedCallCount
    rw [h]

theorem getAllWithFeed_complete_witness :
    expectedCalls ([5, 6] : List Nat).length ≤ 1 ∧
    getAllWithFeed (listServer [5, 6]) 1 = some (.ok [5, 6]) ∧
    getAllWithFeedCallCount (listServer [5, 6]) 1 = some 1 := by
  have h := getAllWithFeed_complete [5, 6] 1 (by decide)
  refine ⟨by decide, h.1, ?_⟩
  rw [h.2]
  decide

/-- C1 counterexample: on a feed with zero records the code still issues one
`GetFeed` call (it cannot know the feed is empty without asking), while the
claim demands `⌈0 / 5000⌉ = 0` calls. -/
theorem getAllWithFeed_zero_records_one_call :
    getAllWithFeedCallCount (listServer ([] : List Nat)) 1 = some 1 ∧
    (0 + pageSize - 1) / pageSize = 0 ∧
    getAllWithFeed (listServer ([] : List Nat)) 1 = some (.ok []) := by
  refine ⟨by decide, by decide, by decide⟩

/-- A feed server that serves `pages` (indexed by version, each response
pointing at the next version via `toVersion`) and then fails with `err`,
modelling a pagination run that throws mid-stream after accumulating the
served pages; `fb` is the response of the fallback `call('Get', ...)`. -/
def scriptServer {R E : Type} (pages : List (List R)) (err : E)
    (fb : Except E (List R)) : FeedTransport R E where
  getFeed := fun i =>
    match pages[i]? with
    | some p => .ok (some { data := p, toVersion := some (i + 1) })
    | none => .error err
  getWithLimit := fb

theorem scriptServer_getFeed {R E : Type} (pages : List (List R)) (err : E)
    (fb : Except E (List R)) (i : Nat) :
    (scriptServer pages err fb).getFeed i
      = match pages[i]? with
        | some p => .ok (some { data := p, toVersion := some (i + 1) })
        | none => .error err := rfl

theorem feedLoop_scriptServer {R E : Type} (pages : List (List R)) (err : E)
    (fb : Except E (List R)) (hfull : ∀ p ∈ pages, p.length = pageSize) :
    ∀ (fuel i : Nat) (acc : List R) (calls : Nat),
      pages.length - i < fuel →
      feedLoop (scriptServer pages err fb) fuel i acc calls = some (.error err) := by
  intro fuel
  induction fuel with
  | zero => intro i acc calls h; omega
  | succ fuel ih =>
    intro i acc calls h
    by_cases hi : i < pages.length
    · have hp : pages[i]? = some pages[i] := List.getElem?_eq_getElem hi
      have hplen : pages[i].length = pageSize := hfull _ (List.getElem_mem hi)
      simp only [feedLoop, scriptServer_getFeed, hp]
      rw [if_neg (by rw [hplen]; omega)]
      exact ih (i + 1) _ _ (by omega)
    · have hp : pages[i]? = none := by
        rw [List.getElem?_eq_none_iff]
        omega
      simp only [feedLoop, scriptServer_getFeed, hp]

/-- C3: if any iteration of the incremental loop throws (here: after the
server has delivered any number of full pages, i.e. after arbitrary partial
accumulation), `getAllWithFeed` returns exactly the result of the single
bounded fallback fetch — never the partial accumulation — and when that
fallback itself is an error, the error propagates to the caller. -/
theorem getAllWithFeed_fallback {R E : Type} (pages : List (List R)) (err : E)
    (fb : Except E (List R)) (fuel : Nat)
    (hfull : ∀ p ∈ pages, p.length = pageSize)
    (hfuel : pages.length < fuel) :
    getAllWithFeed (scriptServer pages err fb) fuel = some fb := by
  unfold getAllWithFeed
  rw [feedLoop_scriptServer pages err fb hfull fuel 0 [] 0 (by omega)]
  rfl

theorem getAllWithFeed_fallback_witness :
    (∀ p ∈ [List.replicate pageSize (0 : Nat)], p.length = pageSize) ∧
    (1 : Nat) < 2 ∧
    getAllWithFeed (scriptServer [List.replicate pageSize (0 : Nat)] () (.ok [7])) 2
      = some (.ok [7]) ∧
    getAllWithFeed (scriptServer [List.replicate pageSize (0 : Nat)] () (.error ())) 2
      = some (.error ()) := by
  refine ⟨by simp, by omega,
    getAllWithFeed_fallback _ () (.ok [7]) 2 (by simp) (by simp),
    getAllWithFeed_fallback _ () (.error ()) 2 (by simp) (by simp)⟩

/-! ## Trips and the usage-breakdown calculators (`useDeviceData.js`) -/

/-- A `Trip` record.  JS numbers are `Rat`; nullable/absent fields are
`Option`.  `start`/`stop`/`startDateTime` model the trip's ISO timestamp
strings as milliseconds (an ISO string is always truthy, so truthiness is
`isSome`). -/
structure Trip where
  start : Option Rat := none
  stop : Option Rat := none
  startDateTime : Option Rat := none
  distance : Option Rat := none
  drivingDuration : Option Rat := none
  idlingDuration : Option Rat := none
  fuelUsed : Option Rat := none
deriving Repr, DecidableEq

/-- The `\x7b start: Date, end: Date \x7d` date range; the `end` field is named
`endTime` because `end` is reserved in Lean.  `none` models an absent bound
(`!range?.start` / `!range?.end`). -/
structure DateRange where
  start : Option Rat := none
  endTime : Option Rat := none
deriving Repr, DecidableEq

/-- `getDuration` from `dateUtils.js`: difference of the two instants in
milliseconds. -/
def getDuration (start stop : Rat) : Rat := stop - start

structure UsageBreakdown where
  driving : Rat
  idle : Rat
  stopped : Rat
deriving Repr, DecidableEq

/-- One trip's contribution to `drivingTimeMs` in the pagination-variant
`calculateUsageBreakdown`: `drivingDuration` (seconds, converted to ms) when
present and positive, else the `start`/`stop` difference when both are
present, else nothing. -/
def drivingContribMs (trip : Trip) : Rat :=
  match trip.drivingDuration with
  | some d =>
    if 0 < d then d * 1000
    else
      match trip.start, trip.stop with
      | some s, some e => getDuration s e
      | _, _ => 0
  | none =>
    match trip.start, trip.stop with
    | some s, some e => getDuration s e
    | _, _ => 0

/-- One trip's contribution to `idleTimeMs` in the pagination-variant
`calculateUsageBreakdown`. -/
def idleContribMs (trip : Trip) : Rat :=
  match trip.idlingDuration with
  | some d => if 0 < d then d * 1000 else 0
  | none => 0

/-- `Math.min(100, Math.max(0, x))` applied to each output percentage. -/
def clampPercent (x : Rat) : Rat := min 100 (max 0 x)

/-- `calculateUsageBreakdown` from `src/hooks/useDeviceData.js` (the
full-pagination variant). -/
def calculateUsageBreakdown (tripsData : List Trip) (range : DateRange) : UsageBreakdown :=
  match range.start, range.endTime with
  | some rangeStart, some rangeEnd =>
    if tripsData.isEmpty then ⟨0, 0, 100⟩
    else
      let totalPeriod := getDuration rangeStart rangeEnd
      if totalPeriod ≤ 0 then ⟨0, 0, 100⟩
      else
        let drivingTimeMs := (tripsData.map drivingContribMs).sum
        let idleTimeMs := (tripsData.map idleContribMs).sum
        let stoppedTimeMs := max 0 (totalPeriod - drivingTimeMs - idleTimeMs)
        { driving := clampPercent (drivingTimeMs / totalPeriod * 100)
          idle := clampPercent (idleTimeMs / totalPeriod * 100)
          stopped := clampPercent (stoppedTimeMs / totalPeriod * 100) }
  | _, _ => ⟨0, 0, 100⟩

theorem clampPercent_nonneg (x : Rat) : 0 ≤ clampPercent x :=
  le_min (by norm_num) (le_max_left 0 x)

theorem clampPercent_le_hundred (x : Rat) : clampPercent x ≤ 100 :=
  min_le_left _ _

theorem clampPercent_eq (x : Rat) (h0 : 0 ≤ x) (h1 : x ≤ 100) : clampPercent x = x := by
  unfold clampPercent
  rw [max_eq_right h0, min_eq_right h1]

/-- C4 (amended form): the degenerate cases give exactly
`\x7bdriving: 0, idle: 0, stopped: 100\x7d`; every output component is clamped
into `[0, 100]`; and the three percentages sum to exactly 100 whenever the
trip durations summed by the code are nonnegative and do not exceed the
range span (so that no clamping bites), with
`stopped = max(0, totalSpan - driving - idling)` as a fraction of the span. -/
theorem calculateUsageBreakdown_spec (tripsData : List Trip) (range : DateRange) :
    (tripsData = [] → calculateUsageBreakdown tripsData range = ⟨0, 0, 100⟩) ∧
    (∀ rs re, range = ⟨some rs, some re⟩ → re - rs ≤ 0 →
      calculateUsageBreakdown tripsData range = ⟨0, 0, 100⟩) ∧
    (0 ≤ (calculateUsageBreakdown tripsData range).driving ∧
      (calculateUsageBreakdown tripsData range).driving ≤ 100 ∧
      0 ≤ (calculateUsageBreakdown tripsData range).idle ∧
      (calculateUsageBreakdown tripsData range).idle ≤ 100 ∧
      0 ≤ (calculateUsageBreakdown tripsData range).stopped ∧
      (calculateUsageBreakdown tripsData range).stopped ≤ 100) ∧
    (∀ rs re, range = ⟨some rs, some re⟩ → tripsData ≠ [] → 0 < re - rs →
      0 ≤ (tripsData.map drivingContribMs).sum →
      0 ≤ (tripsData.map idleContribMs).sum →
      (tripsData.map drivingContribMs).sum + (tripsData.map idleContribMs).sum ≤ re - rs →
      (calculateUsageBreakdown tripsData range).stopped
        = max 0 (re - rs - (tripsData.map drivingContribMs).sum
            - (tripsData.map idleContribMs).sum) / (re - rs) * 100 ∧
      (calculateUsageBreakdown tripsData range).driving
        + (calculateUsageBreakdown tripsData range).idle
        + (calculateUsageBreakdown tripsData range).stopped = 100) := by
  refine ⟨?_, ?_, ?_, ?_⟩
  · intro h
    subst h
    rcases range with ⟨s, e⟩
    cases s <;> cases e <;> rfl
  · intro rs re hrg hle
    subst hrg
    unfold calculateUsageBreakdown
    simp only
    by_cases hempty : tripsData.isEmpty
    · rw [if_pos hempty]
    · rw [if_neg hempty, if_pos (by unfold getDuration; exact hle)]
  · rcases range with ⟨s, e⟩
    cases s <;> cases e <;> unfold calculateUsageBreakdown <;> simp only
    case none.none => norm_num
    case none.some => norm_num
    case some.none => norm_num
    case some.some rs re =>
      by_cases hempty : tripsData.isEmpty
      · rw [if_pos hempty]; norm_num
      · rw [if_neg hempty]
        by_cases hper : getDuration rs re ≤ 0
        · rw [if_pos hper]; norm_num
        · rw [if_neg hper]
          exact ⟨clampPercent_nonneg _, clampPercent_le_hundred _,
            clampPercent_nonneg _, clampPercent_le_hundred _,
            clampPercent_nonneg _, clampPercent_le_hundred _⟩
  · intro rs re hrg hne hpos hD hI hsum
    subst hrg
    have hempty : ¬ tripsData.isEmpty := by
      cases tripsData with
      | nil => exact absurd rfl hne
      | cons a l => simp
    set D := (tripsData.map drivingContribMs).sum with hDdef
    set I := (tripsData.map idleContribMs).sum with hIdef
    set T := re - rs with hTdef
    have hT : (0 : Rat) < T := hpos
    have hT0 : T ≠ 0 := ne_of_gt hT
    unfold calculateUsageBreakdown
    simp only
    rw [if_neg hempty, if_neg (by unfold getDuration; rw [← hTdef]; exact not_le.mpr hT)]
    unfold getDuration
    rw [← hTdef, ← hDdef, ← hIdef]
    have hstopMs : max 0 (T - D - I) = T - D - I := max_eq_right (by linarith)
    have hdrv : clampPercent (D / T * 100) = D / T * 100 := by
      apply clampPercent_eq
      · positivity
      · rw [div_mul_eq_mul_div, div_le_iff₀ hT]
        nlinarith
    have hidl : clampPercent (I / T * 100) = I / T * 100 := by
      apply clampPercent_eq
      · positivity
      · rw [div_mul_eq_mul_div, div_le_iff₀ hT]
        nlinarith
    have hstp : clampPercent ((T - D - I) / T * 100) = (T - D - I) / T * 100 := by
      apply clampPercent_eq
      · have : (0 : Rat) ≤ T - D - I := by linarith
        positivity
      · rw [div_mul_eq_mul_div, div_le_iff₀ hT]
        nlinarith
    simp only [hstopMs, hdrv, hidl, hstp]
    refine ⟨trivial, ?_⟩
    field_simp
    ring

theorem calculateUsageBreakdown_spec_witness :
    (calculateUsageBreakdown [{ drivingDuration := some 1 }] ⟨some 0, some 1000000⟩).driving
      + (calculateUsageBreakdown [{ drivingDuration := some 1 }] ⟨some 0, some 1000000⟩).idle
      + (calculateUsageBreakdown [{ drivingDuration := some 1 }] ⟨some 0, some 1000000⟩).stopped
      = 100 := by
  have h := (calculateUsageBreakdown_spec [{ drivingDuration := some 1 }]
    ⟨some 0, some 1000000⟩).2.2.2 0 1000000 rfl (by simp) (by simp)
    (by simp [drivingContribMs])
    (by simp [idleContribMs])
    (by simp [drivingContribMs, idleContribMs]; decide)
  exact h.2

/-- C4 counterexample: one trip with 600 s of driving and 600 s of idling
inside a 1 000 000 ms range makes the three percentages 60, 60 and 0, which
sum to 120 — far outside any rounding epsilon. -/
theorem calculateUsageBreakdown_sum_exceeds_hundred :
    calculateUsageBreakdown [{ drivingDuration := some 600, idlingDuration := some 600 }]
        ⟨some 0, some 1000000⟩ = ⟨60, 60, 0⟩ ∧
    (60 : Rat) + 60 + 0 ≠ 100 := by
  constructor
  · norm_num [calculateUsageBreakdown, drivingContribMs, idleContribMs, getDuration,
      clampPercent]
  · norm_num

/-! ## The superseded batched-variant `calculateUsageBreakdown`
(second copy of `useDeviceData.js` in the repository) -/

/-- Driving-time contribution in the batched variant: a truthy
`drivingDuration` (present and nonzero, JS truthiness) contributes
`d * 1000` (it is a number in this model), else the `start`/`stop`
difference when both are present. -/
def drivingContribBatched (trip : Trip) : Rat :=
  match trip.drivingDuration with
  | some d =>
    if d ≠ 0 then d * 1000
    else
      match trip.start, trip.stop with
      | some s, some e => getDuration s e
      | _, _ => 0
  | none =>
    match trip.start, trip.stop with
    | some s, some e => getDuration s e
    | _, _ => 0

/-- Idle-time contribution in the batched variant. -/
def idleContribBatched (trip : Trip) : Rat :=
  match trip.idlingDuration with
  | some d => if d ≠ 0 then d * 1000 else 0
  | none => 0

/-- `calculateUsageBreakdown` from the superseded batched copy of
`useDeviceData.js`: same structure, but no empty-trips guard, per-line
`totalPeriod > 0` guards, and the magnitude heuristic that re-multiplies any
positive total below 1000000 by 1000. -/
def calculateUsageBreakdownBatched (tripsData : List Trip) (range : DateRange) :
    UsageBreakdown :=
  match range.start, range.endTime with
  | some rangeStart, some rangeEnd =>
    let totalPeriod := getDuration rangeStart rangeEnd
    let drivingTime0 := (tripsData.map drivingContribBatched).sum
    let idleTime0 := (tripsData.map idleContribBatched).sum
    let drivingTime :=
      if 0 < drivingTime0 ∧ drivingTime0 < 1000000 then drivingTime0 * 1000 else drivingTime0
    let idleTime :=
      if 0 < idleTime0 ∧ idleTime0 < 1000000 then idleTime0 * 1000 else idleTime0
    let stoppedTime := max 0 (totalPeriod - drivingTime - idleTime)
    { driving := clampPercent (if 0 < totalPeriod then drivingTime / totalPeriod * 100 else 0)
      idle := clampPercent (if 0 < totalPeriod then idleTime / totalPeriod * 100 else 0)
      stopped := clampPercent (if 0 < totalPeriod then stoppedTime / totalPeriod * 100 else 100) }
  | _, _ => ⟨0, 0, 100⟩

/-- C9: the two usage-breakdown implementations in the source diverge: a
trip with 10 s of driving inside a 100 000 000 ms range yields 0.01 %
driving under the pagination variant but 10 % under the batched variant
(whose magnitude heuristic re-multiplies 10 000 ms by 1000). -/
theorem usageBreakdown_variants_divergent :
    calculateUsageBreakdown [{ drivingDuration := some 10 }] ⟨some 0, some 100000000⟩
      ≠ calculateUsageBreakdownBatched [{ drivingDuration := some 10 }]
          ⟨some 0, some 100000000⟩ ∧
    (calculateUsageBreakdown [{ drivingDuration := some 10 }]
        ⟨some 0, some 100000000⟩).driving = 1 / 100 ∧
    (calculateUsageBreakdownBatched [{ drivingDuration := some 10 }]
        ⟨some 0, some 100000000⟩).driving = 10 := by
  have h1 : (calculateUsageBreakdown [{ drivingDuration := some 10 }]
      ⟨some 0, some 100000000⟩).driving = 1 / 100 := by
    norm_num [calculateUsageBreakdown, drivingContribMs, idleContribMs, getDuration,
      clampPercent]
  have h2 : (calculateUsageBreakdownBatched [{ drivingDuration := some 10 }]
      ⟨some 0, some 100000000⟩).driving = 10 := by
    norm_num [calculateUsageBreakdownBatched, drivingContribBatched, idleContribBatched,
      getDuration, clampPercent]
  refine ⟨fun hc => ?_, h1, h2⟩
  rw [congrArg UsageBreakdown.driving hc, h2] at h1
  norm_num at h1

/-! ## Fuel-level normalization (`useDeviceData.js`, lines 180-185) -/

/-- The raw-to-percent conversion `level > 1 ? level : level * 100` applied
to the most recent fuel-level `StatusData` value. -/
def normalizeFuelLevel (level : Rat) : Rat := if 1 < level then level else level * 100

/-- A `StatusData` record: a single scalar reading. -/
structure StatusData where
  data : Rat
deriving Repr, DecidableEq

/-- The top-level `fuelLevel` snapshot field: if a most-recent record exists
(`fuelLevelResult?.[0]`, object truthiness), normalize its `data`, else
`null`. -/
def snapshotFuelLevel (fuelLevelResult : List StatusData) : Option Rat :=
  match fuelLevelResult.head? with
  | some rec => some (normalizeFuelLevel rec.data)
  | none => none

/-- C6: a raw fuel-level value `v ≤ 1` is interpreted as a 0-1 fraction and
multiplied by 100, while `v > 1` is kept unchanged; the snapshot field
applies exactly this normalization to the most recent reading. -/
theorem normalizeFuelLevel_spec (v : Rat) :
    (v ≤ 1 → normalizeFuelLevel v = v * 100) ∧
    (1 < v → normalizeFuelLevel v = v) ∧
    snapshotFuelLevel [⟨v⟩] = some (normalizeFuelLevel v) := by
  refine ⟨fun h => ?_, fun h => ?_, rfl⟩
  · unfold normalizeFuelLevel
    rw [if_neg (not_lt.mpr h)]
  · unfold normalizeFuelLevel
    rw [if_pos h]

theorem normalizeFuelLevel_spec_witness :
    normalizeFuelLevel (42 / 100) = 42 ∧ normalizeFuelLevel 67 = 67 := by
  have h1 := (normalizeFuelLevel_spec (42 / 100)).1 ((div_le_one (by decide)).mpr (by decide))
  have h2 := (normalizeFuelLevel_spec 67).2.1 (by simp)
  rw [h1, h2]
  simp

/-! ## Entities, lookup maps and exception enrichment (`useDeviceData.js`) -/

/-- A reference to another entity by id (`exc.rule`, `exc.driver`, ...). -/
structure EntityRef where
  id : String
deriving Repr, DecidableEq

structure Rule where
  id : String
  name : String
deriving Repr, DecidableEq

structure Driver where
  id : String
  firstName : String := ""
  lastName : String := ""
deriving Repr, DecidableEq

structure ExceptionEvent where
  id : String := ""
  rule : Option EntityRef := none
  driver : Option EntityRef := none
deriving Repr, DecidableEq

/-- An exception after enrichment (`\x7b ...exc, ruleName, ruleDetails,
driverInfo \x7d`). -/
structure EnrichedException where
  exc : ExceptionEvent := {}
  ruleName : String
  ruleDetails : Option Rule := none
  driverInfo : Option Driver := none
deriving Repr, DecidableEq

structure FillUp where
  id : String := ""
  driver : Option EntityRef := none
deriving Repr, DecidableEq

structure EnrichedFillUp where
  fillUp : FillUp
  driverInfo : Option Driver
deriving Repr, DecidableEq

/-- `new Map(list.map(x => [x.id, x])).get(key)`: a JS `Map` built from
key/value pairs keeps the last entry per key, and `get(undefined)` is
`undefined`. -/
def mapGetRule (rules : List Rule) : Option String → Option Rule
  | none => none
  | some k => rules.reverse.find? (fun r => r.id == k)

def mapGetDriver (drivers : List Driver) : Option String → Option Driver
  | none => none
  | some k => drivers.reverse.find? (fun d => d.id == k)

/-- JS `s || dflt` on strings: the empty string is falsy. -/
def jsOrString (s dflt : String) : String := if s = "" then dflt else s

def unknownRuleName : String := "Unknown Rule"

def unknownName : String := "Unknown"

/-- Enrichment of one exception:
`ruleName: rulesMap.get(exc.rule?.id)?.name || 'Unknown Rule'`, plus the
resolved rule and driver records. -/
def enrichException (rules : List Rule) (drivers : List Driver)
    (exc : ExceptionEvent) : EnrichedException :=
  { exc := exc
    ruleName :=
      match mapGetRule rules (exc.rule.map EntityRef.id) with
      | some r => jsOrString r.name unknownRuleName
      | none => unknownRuleName
    ruleDetails := mapGetRule rules (exc.rule.map EntityRef.id)
    driverInfo := mapGetDriver drivers (exc.driver.map EntityRef.id) }

/-- Enrichment of one fill-up with its resolved driver. -/
def enrichFillUp (drivers : List Driver) (fu : FillUp) : EnrichedFillUp :=
  { fillUp := fu
    driverInfo := mapGetDriver drivers (fu.driver.map EntityRef.id) }

/-! ## `calculateExceptionsByRule` -/

/-- One output group: `\x7b name, count, ruleId \x7d`. -/
structure RuleGroup where
  name : String
  count : Nat
  ruleId : Option String
deriving Repr, DecidableEq

/-- The group key of one exception: `exc.ruleName || 'Unknown'`. -/
def resolvedGroupName (exc : EnrichedException) : String :=
  jsOrString exc.ruleName unknownName

/-- One step of the `forEach` that fills the `grouped` object: bump the
existing group's count, or append a fresh group (JS object keys preserve
insertion order; `ruleId` comes from the group's first exception). -/
def groupStep (acc : List RuleGroup) (exc : EnrichedException) : List RuleGroup :=
  if acc.any (fun g => g.name == resolvedGroupName exc) then
    acc.map (fun g =>
      if g.name == resolvedGroupName exc then { g with count := g.count + 1 } else g)
  else
    acc ++ [{ name := resolvedGroupName exc, count := 1,
              ruleId := exc.exc.rule.map EntityRef.id }]

/-- `Object.values(grouped)`: the groups in first-encounter order. -/
def groupByRuleName (excs : List EnrichedException) : List RuleGroup :=
  excs.foldl groupStep []

/-- The sort order induced by the comparator `(a, b) => b.count - a.count`:
`a` may precede `b` iff `b.count ≤ a.count`. -/
def countDescOrder (a b : RuleGroup) : Prop := b.count ≤ a.count

instance : DecidableRel countDescOrder := fun a b =>
  inferInstanceAs (Decidable (b.count ≤ a.count))

instance : IsTotal RuleGroup countDescOrder := ⟨fun a b => Nat.le_total b.count a.count⟩

instance : IsTrans RuleGroup countDescOrder := ⟨fun _ _ _ h1 h2 => Nat.le_trans h2 h1⟩

/-- `calculateExceptionsByRule`: group, then sort descending by count with a
stable sort (JS `Array.prototype.sort` is stable; modelled by insertion
sort, which is stable for this order). -/
def calculateExceptionsByRule (exceptionsData : List EnrichedException) : List RuleGroup :=
  if exceptionsData.isEmpty then []
  else List.insertionSort countDescOrder (groupByRuleName exceptionsData)

/-- The distinct names of a list, each at its first occurrence, in order. -/
def firstNames : List String → List String
  | [] => []
  | n :: ns => n :: (firstNames ns).filter (fun m => m != n)

def groupNames (gs : List RuleGroup) : List String := gs.map (fun g => g.name)

/-- Count held for name `n` by the accumulated group list. -/
def namedCount (gs : List RuleGroup) (n : String) : Nat :=
  match gs.find? (fun g => g.name == n) with
  | some g => g.count
  | none => 0

theorem find?_map_eq {α : Type} (p : α → Bool) (f : α → α) (hf : ∀ x, p (f x) = p x) :
    ∀ l : List α, (l.map f).find? p = (l.find? p).map f
  | [] => rfl
  | a :: l => by
    by_cases h : p a
    · rw [List.map_cons, List.find?_cons_of_pos _ (by rw [hf]; exact h),
        List.find?_cons_of_pos _ h]
      rfl
    · rw [List.map_cons, List.find?_cons_of_neg _ (by rw [hf]; exact h),
        List.find?_cons_of_neg _ h, find?_map_eq p f hf l]

theorem bumpGroup_name (n : String) (g : RuleGroup) :
    ((if g.name == n then { g with count := g.count + 1 } else g) : RuleGroup).name
      = g.name := by
  by_cases h : g.name == n
  · rw [if_pos h]
  · rw [if_neg h]

theorem bumpGroup_pred (mn n : String) (g : RuleGroup) :
    (((if g.name == mn then { g with count := g.count + 1 } else g) : RuleGroup).name == n)
      = (g.name == n) := by
  rw [bumpGroup_name]

theorem groupStep_namedCount (acc : List RuleGroup) (exc : EnrichedException) (n : String) :
    namedCount (groupStep acc exc) n
      = namedCount acc n + (if resolvedGroupName exc == n then 1 else 0) := by
  unfold groupStep namedCount
  set m := resolvedGroupName exc with hm
  by_cases hany : acc.any (fun g => g.name == m)
  · rw [if_pos hany,
      find?_map_eq (fun g => g.name == n)
        (fun g => if g.name == m then { g with count := g.count + 1 } else g)
        (fun g => bumpGroup_pred m n g) acc]
    cases hfind : acc.find? (fun g => g.name == n) with
    | none =>
      by_cases hmn : (m == n : Bool)
      · exfalso
        rw [List.any_eq_true] at hany
        obtain ⟨g, hg, hgname⟩ := hany
        have h2 : m = n := by simpa using hmn
        have hgn : (g.name == n) = true := by
          have h1 : g.name = m := by simpa using hgname
          simp [h1, h2]
        exact (List.find?_eq_none.mp hfind g hg) hgn
      · simp [hmn]
    | some g =>
      have hgname := List.find?_some hfind
      have h1 : g.name = n := by simpa using hgname
      by_cases hmn : (m == n : Bool)
      · have h2 : m = n := by simpa using hmn
        have hgm : (g.name == m) = true := by simp [h1, h2]
        simp [hgm, hmn]
        rw [if_pos (h1.trans h2.symm)]
      · have hnm : ¬ g.name = m := fun hc => hmn (by rw [← hc]; simp [h1])
        have hgm : (g.name == m) = false := by simp [hnm]
        simp [hgm, hmn]
        rw [if_neg hnm]
  · rw [if_neg hany, List.find?_append]
    cases hfind : acc.find? (fun g => g.name == n) with
    | none =>
      by_cases hmn : (m == n : Bool)
      · rw [List.find?_cons_of_pos _ (by simpa using hmn)]
        simp [hmn]
      · rw [List.find?_cons_of_neg _ (by simpa using hmn)]
        simp [hmn]
    | some g =>
      have hgname := List.find?_some hfind
      have hmn : ¬ (m == n : Bool) := by
        intro hc
        refine hany (List.any_eq_true.mpr ⟨g, List.mem_of_find?_eq_some hfind, ?_⟩)
        have h1 : g.name = n := by simpa using hgname
        have h2 : m = n := by simpa using hc
        simp [h1, h2]
      simp [hmn]

theorem foldl_groupStep_namedCount :
    ∀ (l : List EnrichedException) (acc : List RuleGroup) (n : String),
      namedCount (l.foldl groupStep acc) n
        = namedCount acc n + (l.filter (fun e => resolvedGroupName e == n)).length
  | [], acc, n => by simp
  | e :: l, acc, n => by
    rw [List.foldl_cons, foldl_groupStep_namedCount l (groupStep acc e) n,
      groupStep_namedCount, List.filter_cons]
    by_cases h : (resolvedGroupName e == n : Bool)
    · simp only [h, if_true, List.length_cons]
      omega
    · simp only [h, Bool.false_eq_true, if_false]
      omega

theorem groupStep_names (acc : List RuleGroup) (exc : EnrichedException) :
    groupNames (groupStep acc exc)
      = if acc.any (fun g => g.name == resolvedGroupName exc) then groupNames acc
        else groupNames acc ++ [resolvedGroupName exc] := by
  unfold groupStep groupNames
  by_cases h : acc.any (fun g => g.name == resolvedGroupName exc)
  · rw [if_pos h, if_pos h, List.map_map]
    apply List.map_congr_left
    intro g _
    exact bumpGroup_name _ g
  · rw [if_neg h, if_neg h, List.map_append]
    rfl

theorem groupStep_names_nodup (acc : List RuleGroup) (exc : EnrichedException)
    (h : (groupNames acc).Nodup) : (groupNames (groupStep acc exc)).Nodup := by
  rw [groupStep_names]
  by_cases hany : acc.any (fun g => g.name == resolvedGroupName exc)
  · rw [if_pos hany]
    exact h
  · rw [if_neg hany, List.nodup_append]
    refine ⟨h, List.nodup_singleton _, ?_⟩
    intro a ha hb
    rcases List.mem_singleton.mp hb with rfl
    rcases List.mem_map.mp ha with ⟨g, hg, hgname⟩
    exact hany (List.any_eq_true.mpr ⟨g, hg, by simp [hgname]⟩)

theorem foldl_groupStep_names_nodup :
    ∀ (l : List EnrichedException) (acc : List RuleGroup),
      (groupNames acc).Nodup → (groupNames (l.foldl groupStep acc)).Nodup
  | [], _, h => h
  | e :: l, acc, h =>
    foldl_groupStep_names_nodup l (groupStep acc e) (groupStep_names_nodup acc e h)

theorem find?_name_of_mem :
    ∀ (gs : List RuleGroup), (groupNames gs).Nodup → ∀ g ∈ gs,
      gs.find? (fun x => x.name == g.name) = some g
  | [], _, g, hg => absurd hg (List.not_mem_nil g)
  | a :: l, hnd, g, hg => by
    have hnd2 : a.name ∉ groupNames l ∧ (groupNames l).Nodup := by
      unfold groupNames at hnd ⊢
      rw [List.map_cons, List.nodup_cons] at hnd
      exact hnd
    rcases List.mem_cons.mp hg with rfl | hg2
    · exact List.find?_cons_of_pos _ (by simp)
    · have hne : ¬ (a.name == g.name : Bool) := by
        intro hc
        have ha : a.name = g.name := by simpa using hc
        exact hnd2.1 (by rw [ha]; exact List.mem_map_of_mem _ hg2)
      have hstep : List.find? (fun x => x.name == g.name) (a :: l)
          = List.find? (fun x => x.name == g.name) l :=
        List.find?_cons_of_neg _ hne
      rw [hstep]
      exact find?_name_of_mem l hnd2.2 g hg2

theorem groupStep_any_name (acc : List RuleGroup) (exc : EnrichedException) (n : String) :
    ((groupStep acc exc).any (fun g => g.name == n))
      = (acc.any (fun g => g.name == n) || (resolvedGroupName exc == n)) := by
  unfold groupStep
  set m := resolvedGroupName exc with hm
  by_cases h : acc.any (fun g => g.name == m)
  · rw [if_pos h, List.any_map]
    have hcomp : ((fun g : RuleGroup => g.name == n) ∘ fun g : RuleGroup =>
        if g.name == m then { g with count := g.count + 1 } else g)
        = fun g : RuleGroup => g.name == n := by
      funext g
      exact bumpGroup_pred m n g
    rw [hcomp]
    by_cases hmn : (m == n : Bool)
    · have h2 : m = n := by simpa using hmn
      rw [hmn, Bool.or_true, ← h2]
      exact h
    · have hf : (m == n) = false := by simpa using hmn
      rw [hf, Bool.or_false]
  · rw [if_neg h, List.any_append]
    simp

theorem groupPred_not_or (acc : List RuleGroup) (m x : String) :
    (!(acc.any (fun g => g.name == x) || (m == x)))
      = (!(acc.any (fun g => g.name == x)) && (x != m)) := by
  by_cases hx : m = x
  · subst hx
    simp
  · have h1 : (m == x) = false := by simp [hx]
    have h2 : (x != m) = true := bne_iff_ne.mpr (fun hc => hx hc.symm)
    rw [h1, h2, Bool.or_false, Bool.and_true]

theorem foldl_groupStep_names_eq :
    ∀ (l : List EnrichedException) (acc : List RuleGroup),
      groupNames (l.foldl groupStep acc)
        = groupNames acc
          ++ (firstNames (l.map resolvedGroupName)).filter
              (fun n => !(acc.any (fun g => g.name == n)))
  | [], acc => by simp [firstNames]
  | e :: l, acc => by
    rw [List.foldl_cons, foldl_groupStep_names_eq l (groupStep acc e), groupStep_names,
      List.map_cons]
    set m := resolvedGroupName e with hm
    set F := firstNames (l.map resolvedGroupName) with hF
    have hfn : firstNames (m :: l.map resolvedGroupName)
        = m :: F.filter (fun x => x != m) := rfl
    rw [hfn, List.filter_cons]
    have hpred : (fun n => !((groupStep acc e).any (fun g => g.name == n)))
        = fun n => !(acc.any (fun g => g.name == n) || (m == n)) := by
      funext n
      rw [groupStep_any_name]
    rw [hpred]
    by_cases hany : acc.any (fun g => g.name == m)
    · rw [if_pos hany]
      rw [if_neg (by rw [hany]; simp)]
      rw [List.filter_filter]
      congr 1
      apply List.filter_congr
      intro x _
      rw [groupPred_not_or, Bool.and_comm]
    · rw [if_neg hany]
      rw [if_pos (by
        have hfalse : (acc.any fun g => g.name == m) = false := by simpa using hany
        simp [hfalse])]
      rw [List.filter_filter, List.append_assoc]
      congr 1
      rw [List.singleton_append]
      congr 1
      apply List.filter_congr
      intro x _
      rw [groupPred_not_or, Bool.and_comm]

theorem groupByRuleName_names (excs : List EnrichedException) :
    groupNames (groupByRuleName excs) = firstNames (excs.map resolvedGroupName) := by
  unfold groupByRuleName
  rw [foldl_groupStep_names_eq excs []]
  simp [groupNames]

/-- C5: `calculateExceptionsByRule` groups enriched exceptions by resolved
rule name with correct counts (each group's count is the number of records
with that name, and every record's name has a group), sorts descending by
count, breaks ties by first-encountered order (the grouped list is in
first-occurrence order and the sort is stable), treats unknown-rule records
as an ordinary `"Unknown Rule"` group, and on
`[Speeding, Speeding, Idling]` yields `[Speeding: 2, Idling: 1]`. -/
theorem calculateExceptionsByRule_spec :
    (∀ excs : List EnrichedException, ∀ g ∈ calculateExceptionsByRule excs,
        g.count = (excs.filter (fun e => resolvedGroupName e == g.name)).length) ∧
    (∀ excs : List EnrichedException, ∀ e ∈ excs,
        ∃ g ∈ calculateExceptionsByRule excs, g.name = resolvedGroupName e) ∧
    (∀ excs : List EnrichedException,
        (calculateExceptionsByRule excs).Pairwise countDescOrder) ∧
    (∀ excs : List EnrichedException,
        groupNames (groupByRuleName excs) = firstNames (excs.map resolvedGroupName)) ∧
    (∀ excs : List EnrichedException, ∀ a b : RuleGroup,
        List.Sublist [a, b] (groupByRuleName excs) → a.count = b.count →
        List.Sublist [a, b] (calculateExceptionsByRule excs)) ∧
    (∀ (rules : List Rule) (drivers : List Driver) (exc : ExceptionEvent),
        mapGetRule rules (exc.rule.map EntityRef.id) = none →
        (enrichException rules drivers exc).ruleName = unknownRuleName) ∧
    calculateExceptionsByRule
        [{ ruleName := "Speeding" }, { ruleName := "Speeding" }, { ruleName := "Idling" }]
      = [{ name := "Speeding", count := 2, ruleId := none },
         { name := "Idling", count := 1, ruleId := none }] := by
  have hmem : ∀ (excs : List EnrichedException) (g : RuleGroup),
      g ∈ calculateExceptionsByRule excs → g ∈ groupByRuleName excs := by
    intro excs g hg
    unfold calculateExceptionsByRule at hg
    by_cases hempty : excs.isEmpty
    · rw [if_pos hempty] at hg
      exact absurd hg (List.not_mem_nil g)
    · rw [if_neg hempty] at hg
      exact (List.mem_insertionSort countDescOrder).mp hg
  have hnodup : ∀ excs : List EnrichedException,
      (groupNames (groupByRuleName excs)).Nodup := by
    intro excs
    exact foldl_groupStep_names_nodup excs [] List.nodup_nil
  refine ⟨?_, ?_, ?_, ?_, ?_, ?_, ?_⟩
  · intro excs g hg
    have hg2 := hmem excs g hg
    have hfind := find?_name_of_mem (groupByRuleName excs) (hnodup excs) g hg2
    have hcount := foldl_groupStep_namedCount excs [] g.name
    unfold groupByRuleName at hfind
    unfold namedCount at hcount
    rw [hfind] at hcount
    simpa using hcount
  · intro excs e he
    have hcount := foldl_groupStep_namedCount excs [] (resolvedGroupName e)
    have hpos : 0 < (excs.filter
        (fun x => resolvedGroupName x == resolvedGroupName e)).length := by
      rw [List.length_pos]
      intro hnil
      have hin : e ∈ excs.filter (fun x => resolvedGroupName x == resolvedGroupName e) :=
        List.mem_filter.mpr ⟨he, by simp⟩
      rw [hnil] at hin
      exact List.not_mem_nil e hin
    unfold namedCount at hcount
    cases hfind : (excs.foldl groupStep []).find?
        (fun g => g.name == resolvedGroupName e) with
    | none =>
      rw [hfind] at hcount
      simp at hcount
      omega
    | some g =>
      have hgmem : g ∈ groupByRuleName excs := List.mem_of_find?_eq_some hfind
      have hgname : g.name = resolvedGroupName e := by
        have hbeq := List.find?_some hfind
        simpa using hbeq
      have hne : ¬ excs.isEmpty := by
        cases excs with
        | nil => exact absurd he (List.not_mem_nil e)
        | cons x l => simp
      refine ⟨g, ?_, hgname⟩
      unfold calculateExceptionsByRule
      rw [if_neg hne]
      exact (List.mem_insertionSort countDescOrder).mpr hgmem
  · intro excs
    unfold calculateExceptionsByRule
    by_cases hempty : excs.isEmpty
    · rw [if_pos hempty]
      exact List.Pairwise.nil
    · rw [if_neg hempty]
      exact List.sorted_insertionSort countDescOrder (groupByRuleName excs)
  · exact groupByRuleName_names
  · intro excs a b hsub hcounts
    by_cases hempty : excs.isEmpty
    · exfalso
      have hnil : excs = [] := List.isEmpty_iff.mp hempty
      subst hnil
      have hba := List.sublist_nil.mp hsub
      simp at hba
    · unfold calculateExceptionsByRule
      rw [if_neg hempty]
      exact List.pair_sublist_insertionSort (le_of_eq hcounts.symm) hsub
  · intro rules drivers exc h
    unfold enrichException
    rw [h]
  · decide

theorem calculateExceptionsByRule_spec_witness :
    ({ name := "Speeding", count := 2, ruleId := none } : RuleGroup)
        ∈ calculateExceptionsByRule
            [{ ruleName := "Speeding" }, { ruleName := "Speeding" },
             { ruleName := "Idling" }] ∧
    ({ name := "Speeding", count := 2, ruleId := none } : RuleGroup).count
      = (([{ ruleName := "Speeding" }, { ruleName := "Speeding" },
            { ruleName := "Idling" }] : List EnrichedException).filter
          (fun e => resolvedGroupName e == "Speeding")).length :=
  ⟨by decide, calculateExceptionsByRule_spec.1 _ _ (by decide)⟩

/-! ## The `fetchData` pipeline of `useDeviceData.js` (guard, request
groups, state updates, error path) -/

structure Device where
  id : String := ""
  odometer : Option Rat := none
deriving Repr, DecidableEq

structure UsageStats where
  daysDriven : Nat
  fuelLevel : Option Rat
  distanceDriven : Rat
  timeDriven : Rat
  fuelEconomy : Option Rat
  odometer : Option Rat
deriving Repr, DecidableEq

/-- JS truthiness of a nullable number: absent, and the value 0, are falsy. -/
def ratTruthy : Option Rat → Bool
  | some v => v != 0
  | none => false

/-- `a || b` on nullable numbers. -/
def jsOrRat (a b : Option Rat) : Option Rat :=
  if ratTruthy a then a else b

/-- The usage-stats fuel level:
`currentFuelLevel ? (currentFuelLevel > 1 ? cf : cf * 100) : null` —
note that the raw value 0 is falsy and therefore mapped to `null`. -/
def usageStatsFuelLevel : Option Rat → Option Rat
  | some v => if v ≠ 0 then some (normalizeFuelLevel v) else none
  | none => none

/-- `currentOdometer || deviceData?.odometer || null`. -/
def resolveOdometer (currentOdometer : Option Rat) (deviceData : Option Device) :
    Option Rat :=
  jsOrRat currentOdometer (jsOrRat (deviceData.bind Device.odometer) none)

/-- `timeDriven` contribution of one trip in `calculateUsageStats`:
a present `drivingDuration` (even 0 or negative) is converted from seconds
to milliseconds, else the `start`/`stop` difference when both exist. -/
def usageStatsTimeContrib (t : Trip) : Rat :=
  match t.drivingDuration with
  | some d => d * 1000
  | none =>
    match t.start, t.stop with
    | some s, some e => getDuration s e
    | _, _ => 0

/-- `getUniqueDaysCount` from `dateUtils.js`: the number of distinct
day keys (a `Set` of `"y-m-d"` strings). -/
def getUniqueDaysCount (keys : List String) : Nat := keys.dedup.length

/-- `calculateUsageStats`.  `localDayKey` abstracts the host `Date`
decomposition `new Date(ms)` into the local `"y-m-d"` key (time-zone
dependent, supplied by the browser). -/
def calculateUsageStats (localDayKey : Option Rat → String) (tripsData : List Trip)
    (deviceData : Option Device) (currentOdometer currentFuelLevel : Option Rat) :
    UsageStats :=
  if tripsData.isEmpty then
    { daysDriven := 0
      fuelLevel := usageStatsFuelLevel currentFuelLevel
      distanceDriven := 0
      timeDriven := 0
      fuelEconomy := none
      odometer := resolveOdometer currentOdometer deviceData }
  else
    let daysDriven := getUniqueDaysCount (tripsData.map
      (fun t => localDayKey (t.start.or t.startDateTime)))
    let distanceDriven := (tripsData.map (fun t => t.distance.getD 0)).sum
    let timeDriven := (tripsData.map usageStatsTimeContrib).sum
    let fuelUsed := (tripsData.map (fun t => t.fuelUsed.getD 0)).sum
    { daysDriven := daysDriven
      fuelLevel := usageStatsFuelLevel currentFuelLevel
      distanceDriven := distanceDriven
      timeDriven := timeDriven
      fuelEconomy :=
        if 0 < fuelUsed ∧ 0 < distanceDriven then some (fuelUsed / distanceDriven * 100)
        else none
      odometer := resolveOdometer currentOdometer deviceData }

/-- The index-aligned responses of the two request groups awaited by
`fetchData` (the Trip feed result and the 7 destructured multicall
results). -/
structure FetchResponse where
  tripsResult : List Trip := []
  deviceResult : List Device := []
  exceptionsResult : List ExceptionEvent := []
  fuelUpsResult : List FillUp := []
  fuelLevelResult : List StatusData := []
  odometerResult : List StatusData := []
  rulesResult : List Rule := []
  driversResult : List Driver := []
deriving Repr, DecidableEq

/-- The hook's state (`useState` cells), with their initial values as
defaults. -/
structure Snapshot where
  loading : Bool := true
  error : Option String := none
  device : Option Device := none
  trips : List Trip := []
  exceptions : List EnrichedException := []
  fuelUps : List EnrichedFillUp := []
  rules : List Rule := []
  drivers : List Driver := []
  fuelLevel : Option Rat := none
  odometer : Option Rat := none
  usageStats : Option UsageStats := none
  usageBreakdown : Option UsageBreakdown := none
  exceptionsByRule : List RuleGroup := []
deriving Repr, DecidableEq

def initialSnapshot : Snapshot := {}

/-- A network request issued by `fetchData`: the `getAllWithFeed` Trip fetch
or the batched multicall with its operation count. -/
inductive ApiCall where
  | feed (typeName : String)
  | multi (operationCount : Nat)
deriving Repr, DecidableEq

def tripTypeName : String := "Trip"

/-- JS truthiness of a nullable string: absent and `""` are falsy. -/
def strTruthy : Option String → Bool
  | some v => v != ""
  | none => false

/-- The input-validation guard of `fetchData`:
`!api || !deviceId || !dateRange?.start || !dateRange?.end` (negated). -/
def fetchGuardPasses (hasApi : Bool) (deviceId : Option String) (range : DateRange) :
    Bool :=
  hasApi && strTruthy deviceId && range.start.isSome && range.endTime.isSome

/-- `setLoading(true); setError(null)` at the start of a load that passed
the guard. -/
def startFetch (s : Snapshot) : Snapshot := { s with loading := true, error := none }

/-- The synchronous prefix of `fetchData`: an early return performing only
`setLoading(false)` when the guard fails, else the start-of-load state
updates together with the two request groups it issues. -/
def fetchDataStart (hasApi : Bool) (deviceId : Option String) (range : DateRange)
    (s : Snapshot) : Snapshot × List ApiCall :=
  if fetchGuardPasses hasApi deviceId range then
    (startFetch s, [ApiCall.feed tripTypeName, ApiCall.multi 7])
  else
    ({ s with loading := false }, [])

/-- The state updates `fetchData` performs once both request groups have
resolved, followed by the `finally` block's `setLoading(false)`.  The
source never consults the abort signal between the `await` and these
updates (the `AbortController` is aborted by a newer load but its `signal`
is not passed to any call nor read before any setter), so this function has
no cancellation-token parameter: the updates run even for a superseded
load. -/
def applyFetchSuccess (localDayKey : Option Rat → String) (resp : FetchResponse)
    (range : DateRange) (s : Snapshot) : Snapshot :=
  let deviceData := resp.deviceResult.head?
  let enrichedExceptions :=
    resp.exceptionsResult.map (enrichException resp.rulesResult resp.driversResult)
  let enrichedFuelUps := resp.fuelUpsResult.map (enrichFillUp resp.driversResult)
  { s with
    device := deviceData
    trips := resp.tripsResult
    rules := resp.rulesResult
    drivers := resp.driversResult
    exceptions := enrichedExceptions
    fuelUps := enrichedFuelUps
    fuelLevel := snapshotFuelLevel resp.fuelLevelResult
    odometer := resolveOdometer (resp.odometerResult.head?.map StatusData.data) deviceData
    usageStats := some (calculateUsageStats localDayKey resp.tripsResult deviceData
      (resp.odometerResult.head?.map StatusData.data)
      (resp.fuelLevelResult.head?.map StatusData.data))
    usageBreakdown := some (calculateUsageBreakdown resp.tripsResult range)
    exceptionsByRule := calculateExceptionsByRule enrichedExceptions
    loading := false }

def errorMessage : String := "Failed to load device data. Please try again."

def typeErrorName : String := "TypeError"

def abortErrorName : String := "AbortError"

/-- The `catch`/`finally` path of `fetchData`: a non-abort error stores the
user-facing message, an `AbortError` is swallowed; either way
`setLoading(false)` runs and no data setter does. -/
def applyFetchFailure (errName : String) (s : Snapshot) : Snapshot :=
  { s with
    error := if errName = abortErrorName then s.error else some errorMessage
    loading := false }

/-- A stand-in for the browser's local-date decomposition, used at concrete
inputs. -/
def constantDayKey : Option Rat → String := fun _ => "1970-0-1"

/-- Load A's responses in the interleaving scenario: one trip. -/
def respA : FetchResponse := { tripsResult := [{ drivingDuration := some 1 }] }

/-- Load B's responses in the interleaving scenario: no trips. -/
def respB : FetchResponse := {}

def rangeAB : DateRange := { start := some 0, endTime := some 1000000 }

/-- C2 (refuted by the code): `load(A); load(B)` with A's response arriving
after B's completion ends with A's updates applied last — the final
snapshot reflects A's data, not only B's — because the aborted token is
never consulted before the state updates. -/
theorem superseded_load_overwrites :
    (applyFetchSuccess constantDayKey respA rangeAB
        (applyFetchSuccess constantDayKey respB rangeAB
          (startFetch (startFetch initialSnapshot)))).trips
      = respA.tripsResult ∧
    respA.tripsResult ≠ respB.tripsResult := by
  constructor
  · rfl
  · decide

/-- C7: when `deviceId` is absent or both range bounds are absent, the load
resolves immediately: the snapshot only gets `loading := false` and neither
the Trip feed fetch nor the batched multicall is issued. -/
theorem fetchData_missing_inputs (hasApi : Bool) (deviceId : Option String)
    (range : DateRange) (s : Snapshot)
    (h : deviceId = none ∨ (range.start = none ∧ range.endTime = none)) :
    fetchDataStart hasApi deviceId range s = ({ s with loading := false }, []) := by
  have hg : fetchGuardPasses hasApi deviceId range = false := by
    rcases h with rfl | ⟨h1, h2⟩
    · simp [fetchGuardPasses, strTruthy]
    · simp [fetchGuardPasses, h1]
  unfold fetchDataStart
  rw [hg]
  rfl

theorem fetchData_missing_inputs_witness :
    fetchDataStart true none { start := some 0, endTime := some 1 } initialSnapshot
      = ({ initialSnapshot with loading := false }, []) :=
  fetchData_missing_inputs true none { start := some 0, endTime := some 1 }
    initialSnapshot (Or.inl rfl)

/-- C8: a failed load leaves every data field of the snapshot unchanged and
updates only `error` and `loading`; an `AbortError` (cancellation) never
populates `error`, which stays `none` as reset at load start. -/
theorem fetchData_error_frame (s : Snapshot) (errName : String) :
    (applyFetchFailure errName (startFetch s)).device = s.device ∧
    (applyFetchFailure errName (startFetch s)).trips = s.trips ∧
    (applyFetchFailure errName (startFetch s)).exceptions = s.exceptions ∧
    (applyFetchFailure errName (startFetch s)).fuelUps = s.fuelUps ∧
    (applyFetchFailure errName (startFetch s)).rules = s.rules ∧
    (applyFetchFailure errName (startFetch s)).drivers = s.drivers ∧
    (applyFetchFailure errName (startFetch s)).fuelLevel = s.fuelLevel ∧
    (applyFetchFailure errName (startFetch s)).odometer = s.odometer ∧
    (applyFetchFailure errName (startFetch s)).usageStats = s.usageStats ∧
    (applyFetchFailure errName (startFetch s)).usageBreakdown = s.usageBreakdown ∧
    (applyFetchFailure errName (startFetch s)).exceptionsByRule = s.exceptionsByRule ∧
    (applyFetchFailure errName (startFetch s)).loading = false ∧
    (errName ≠ abortErrorName →
      (applyFetchFailure errName (startFetch s)).error = some errorMessage) ∧
    (errName = abortErrorName →
      (applyFetchFailure errName (startFetch s)).error = none) := by
  unfold applyFetchFailure startFetch
  refine ⟨rfl, rfl, rfl, rfl, rfl, rfl, rfl, rfl, rfl, rfl, rfl, rfl, ?_, ?_⟩
  · intro h
    simp [h]
  · intro h
    simp [h]

theorem fetchData_error_frame_witness :
    (applyFetchFailure typeErrorName (startFetch initialSnapshot)).trips
        = initialSnapshot.trips ∧
    (applyFetchFailure typeErrorName (startFetch initialSnapshot)).error
        = some errorMessage ∧
    (applyFetchFailure abortErrorName (startFetch initialSnapshot)).error = none := by
  have h1 := fetchData_error_frame initialSnapshot typeErrorName
  have h2 := fetchData_error_frame initialSnapshot abortErrorName
  exact ⟨h1.2.1, h1.2.2.2.2.2.2.2.2.2.2.2.2.1 (by decide), h2.2.2.2.2.2.2.2.2.2.2.2.2.2 rfl⟩

/-- C10: when the most recent fuel-level reading is exactly 0, the two
fuel-level fields of the resulting snapshot disagree: the top-level
`fuelLevel` is `some 0` (0 ≤ 1, so it is multiplied by 100) while
`usageStats.fuelLevel` is `none`, because the usage-stats calculator's
`currentFuelLevel ? ... : null` treats the falsy raw value 0 as missing. -/
theorem fuelLevel_zero_fields_disagree (localDayKey : Option Rat → String)
    (resp : FetchResponse) (range : DateRange) (s : Snapshot) (rec : StatusData)
    (hrec : resp.fuelLevelResult.head? = some rec) (hzero : rec.data = 0) :
    (applyFetchSuccess localDayKey resp range s).fuelLevel = some 0 ∧
    ∃ stats, (applyFetchSuccess localDayKey resp range s).usageStats = some stats ∧
      stats.fuelLevel = none := by
  have hnorm : normalizeFuelLevel rec.data = 0 := by
    unfold normalizeFuelLevel
    rw [hzero, if_neg (by norm_num), zero_mul]
  constructor
  · show snapshotFuelLevel resp.fuelLevelResult = some 0
    unfold snapshotFuelLevel
    rw [hrec]
    show some (normalizeFuelLevel rec.data) = some 0
    rw [hnorm]
  · refine ⟨_, rfl, ?_⟩
    show (calculateUsageStats localDayKey resp.tripsResult resp.deviceResult.head?
      (resp.odometerResult.head?.map StatusData.data)
      (resp.fuelLevelResult.head?.map StatusData.data)).fuelLevel = none
    have hcf : resp.fuelLevelResult.head?.map StatusData.data = some 0 := by
      rw [hrec]
      show some rec.data = some 0
      rw [hzero]
    rw [hcf]
    unfold calculateUsageStats
    by_cases h : resp.tripsResult.isEmpty
    · rw [if_pos h]
      show usageStatsFuelLevel (some 0) = none
      unfold usageStatsFuelLevel
      simp
    · rw [if_neg h]
      show usageStatsFuelLevel (some 0) = none
      unfold usageStatsFuelLevel
      simp

theorem fuelLevel_zero_fields_disagree_witness :
    (applyFetchSuccess constantDayKey { fuelLevelResult := [{ data := 0 }] }
        rangeAB initialSnapshot).fuelLevel = some 0 ∧
    ∃ stats,
      (applyFetchSuccess constantDayKey { fuelLevelResult := [{ data := 0 }] }
          rangeAB initialSnapshot).usageStats = some stats ∧
      stats.fuelLevel = none :=
  fuelLevel_zero_fields_disagree constantDayKey { fuelLevelResult := [{ data := 0 }] }
    rangeAB initialSnapshot { data := 0 } rfl rfl

end Dashboard
